import Mathlib

/-!
Verification of the wfmash core against its design specification.

The definitions below are shallow embeddings of the C++ sources:
- `src/interface/parse_args.hpp` (command-line parameter handling),
- `computeAlignments.hpp` (the alignment pipeline: `parseMashmapRow`,
  `computeAlignments`, `doAlignment`, the atomic queues and the
  reader/worker/writer threads).

Strings are modelled as `List Char`; machine integers as `Int`/`Nat` with
explicit bounds where the code's width matters; `float`/`double`
arithmetic is modelled exactly (the rounding of IEEE values is below the
granularity of this embedding and is noted wherever it is abstracted).
-/

namespace Wfmash

/-- Whitespace characters as recognised by `std::istream >> std::string`
(C locale `isspace`). -/
def isWS (c : Char) : Bool :=
  c = ' ' || c = '\t' || c = '\n' || c = '\x0b' || c = '\x0c' || c = '\r'

/-- Decimal digit test (C locale `isdigit`). -/
def isDig (c : Char) : Bool :=
  '0' ≤ c && c ≤ '9'

/-- Accumulator pass for `wsTokens`: `acc` holds the current word reversed. -/
def wsTokensAux : List Char → List Char → List (List Char)
  | [], acc => if acc.isEmpty then [] else [acc.reverse]
  | c :: cs, acc =>
    if isWS c then
      if acc.isEmpty then wsTokensAux cs [] else acc.reverse :: wsTokensAux cs []
    else wsTokensAux cs (c :: acc)

/-- Tokenisation done by `while (ss >> word) tokens.push_back(word);` in
`parseMashmapRow`: maximal runs of non-whitespace characters. -/
def wsTokens (s : List Char) : List (List Char) :=
  wsTokensAux s []

/-- Accumulator pass for `splitCh`. -/
def splitChAux (delim : Char) : List Char → List Char → List (List Char)
  | [], acc => if acc.isEmpty then [] else [acc.reverse]
  | c :: cs, acc =>
    if c = delim then acc.reverse :: splitChAux delim cs []
    else splitChAux delim cs (c :: acc)

/-- Model of `skch::CommonFunc::split` (declared in `map/include/commonFunc.hpp`,
whose body is not under `src/`): repeated `std::getline(ss, item, delim)`.
Middle empty fields are kept, a trailing empty field is not produced, and
the empty string yields no fields. -/
def splitCh (delim : Char) (s : List Char) : List (List Char) :=
  splitChAux delim s []

/-- Numeric value of a digit character. -/
def digitVal (c : Char) : Nat :=
  c.toNat - '0'.toNat

/-- Value of a digit string, most significant digit first. -/
def digitsToNat (ds : List Char) : Nat :=
  ds.foldl (fun a c => a * 10 + digitVal c) 0

/-- Model of `std::stoi`: optional sign, then a maximal digit prefix (any trailing
junk is ignored); `none` models the thrown `std::invalid_argument` when no
digit is present, or `std::out_of_range` when the value does not fit in a
32-bit signed `int`. Leading whitespace never occurs in the call sites
embedded here (all arguments are whitespace-free tokens). -/
def stoiM (s : List Char) : Option Int :=
  let signed : Int × List Char :=
    match s with
    | '-' :: r => (-1, r)
    | '+' :: r => (1, r)
    | r => (1, r)
  let ds := signed.2.takeWhile isDig
  if ds.isEmpty then none
  else
    let v : Int := signed.1 * (digitsToNat ds : Int)
    if v < -2147483648 ∨ 2147483647 < v then none else some v

/-- Exact decomposition of a digit-and-dot decimal literal `s`:
`decParts s = some (N, L)` means the literal names the exact rational
`N / 10^L` (integer digits and fraction digits concatenated, over the
fraction length); `std::stof` then rounds that rational to binary32
(see `roundFloat32`). `none` models the `std::invalid_argument` thrown
by `stof` when the literal holds no digit at all (the string `"."`).
Only called on strings of digits with at most one dot. -/
def decParts (s : List Char) : Option (Nat × Nat) :=
  let ip := s.takeWhile (fun c => c ≠ '.')
  let rest := s.dropWhile (fun c => c ≠ '.')
  let fp := match rest with
    | [] => ([] : List Char)
    | _ :: r => r
  if ip.isEmpty ∧ fp.isEmpty then none
  else some (digitsToNat (ip ++ fp), fp.length)

/-- The exact rational value named by `decParts` (used only for the
identity-tag field of `parseMashmapRow`, whose value no claim
inspects). -/
def decValue (p : Nat × Nat) : ℚ :=
  (p.1 : ℚ) / (10 : ℚ) ^ p.2

/-- Fuel-driven binary digit count; `bitlenAux f n` is the number of
binary digits of `n` whenever the fuel covers the recursion depth. -/
def bitlenAux : Nat → Nat → Nat
  | 0, _ => 0
  | f + 1, n => if n = 0 then 0 else bitlenAux f (n / 2) + 1

/-- Number of binary digits of `n` (`bitlen 0 = 0`, `2^(bitlen n - 1) ≤
n < 2^(bitlen n)` for positive `n`). Fuel `n` suffices: the digit count
of a positive number never exceeds the number itself. -/
def bitlen (n : Nat) : Nat := bitlenAux n n

/-- Integer division rounded to nearest, ties to even — the IEEE-754
default rounding applied to a scaled significand. -/
def divRoundEven (num den : Nat) : Nat :=
  let q := num / den
  let r := num % den
  if den < 2 * r then q + 1
  else if 2 * r < den then q
  else if q % 2 = 0 then q else q + 1

/-- Whether `N / D ≥ 2^j` (exact integer comparison for either sign of
`j`). -/
def ge2pow (N D : Nat) (j : Int) : Bool :=
  match j with
  | .ofNat a => D * 2 ^ a ≤ N
  | .negSucc b => D ≤ N * 2 ^ (b + 1)

/-- For positive `N`, `D`: the unique `t` with `2^t ≤ N/D < 2^(t+1)`.
The bit-length difference is `t` or `t + 1`; the `ge2pow` test picks
the right one. -/
def ilog2Rat (N D : Nat) : Int :=
  let j : Int := (bitlen N : Int) - (bitlen D : Int)
  if ge2pow N D j then j else j - 1

/-- Whether the rounded value `m·2^e` reaches 2^128 and therefore
overflows binary32 to infinity (impossible for negative `e`, where the
value stays below 2^25). -/
def overflow32 (m : Nat) (e : Int) : Bool :=
  match e with
  | .ofNat a => 2 ^ 128 ≤ m * 2 ^ a
  | .negSucc _ => false

/-- The correctly rounded IEEE-754 binary32 value of `N / 10^L`, the
conversion `std::stof` performs on the literal decomposed by
`decParts`. The result `(m, e)` names the value `m·2^e` (not kept
normalized; only the value is used downstream). Rounding is to nearest,
ties to even, on the grid of the value's binade: unit `2^(t−23)` for
`2^t ≤ N/10^L < 2^(t+1)`, floored at the subnormal unit `2^(−149)`.
`none` models the `std::out_of_range` thrown when the rounded value
reaches 2^128 (infinity). The `ERANGE` that some libraries also raise
on underflow below the normal range is not modelled — no claim touches
such values. -/
def roundFloat32 (N L : Nat) : Option (Nat × Int) :=
  if N = 0 then some (0, 0)
  else
    let D := 10 ^ L
    let t := ilog2Rat N D
    let e : Int := max (t - 23) (-149)
    let m :=
      match e with
      | .ofNat a => divRoundEven N (D * 2 ^ a)
      | .negSucc b => divRoundEven (N * 2 ^ (b + 1)) D
    if overflow32 m e then none else some (m, e)

/-- Truncation toward zero of `m·2^e · 10^k`, the `(int)` cast applied
to the product `stof(tmp) * pow(10, exp)`. The `float` value `m·2^e`
converts to `double` exactly; `pow(10, exp)` is exact in `double` for
`exp ∈ {0, 3, 6, 9}`; and the product `m·5^k·2^(e+k)` carries at most
24 + 21 = 45 significant bits, so the `double` multiplication is exact
and only `stof`'s rounding is observable. For the nonnegative result,
truncation toward zero is floor division by the power of two. -/
def scaledTrunc (m : Nat) (e : Int) (k : Nat) : Nat :=
  match e with
  | .ofNat a => m * 2 ^ a * 10 ^ k
  | .negSucc b => m * 10 ^ k / 2 ^ (b + 1)

/-- The `is_a_float` lambda inside `handy_parameter`: nonempty, only
characters `0123456789.`, and fewer than two dots. -/
def is_a_float (s : List Char) : Bool :=
  !s.isEmpty && s.all (fun c => isDig c || c = '.') && s.count '.' < 2

/-- Exponent attached to a magnitude suffix in `handy_parameter`:
`k`/`K` ↦ 3, `m`/`M` ↦ 6, `g`/`G` ↦ 9, anything else ↦ 0. -/
def hpExp (c : Char) : Nat :=
  if c = 'k' ∨ c = 'K' then 3
  else if c = 'm' ∨ c = 'M' then 6
  else if c = 'g' ∨ c = 'G' then 9
  else 0

/-- Suffix stripping in `handy_parameter`: examines `value[str_len-1]`
and drops it when it is a magnitude suffix. -/
def hpTrim (value : List Char) : List Char × Nat :=
  match value.getLast? with
  | none => (value, 0)
  | some c => if hpExp c = 0 then (value, 0) else (value.dropLast, hpExp c)

/-- Embedding of `wfmash::handy_parameter` (`parse_args.hpp`): strip a
`k`/`m`/`g` suffix, then
`is_a_float(tmp) ? (int)(stof(tmp) * pow(10, exp)) : -1`. The literal
`tmp` names the exact rational `N / 10^L` (`decParts`); `stof` rounds
it to binary32 (`roundFloat32`, single-precision rounding included);
the product with `pow(10, exp)` is exact in `double` and the `(int)`
cast truncates it (`scaledTrunc`). The model returns `none` for the
undefined or aborting cases: the read of `value[str_len-1]` on an
empty string, the uncaught `stof` exception on the digitless literal
`"."`, and `stof` overflow. Out-of-`int`-range casts are undefined in
C; theorems about this function restrict to the in-range case. -/
def handy_parameter (value : List Char) : Option Int :=
  if value.isEmpty then none
  else
    let te := hpTrim value
    if is_a_float te.1 then
      match decParts te.1 with
      | none => none
      | some p =>
        (roundFloat32 p.1 p.2).map (fun f => Int.ofNat (scaledTrunc f.1 f.2 te.2))
    else some (-1)

/-- Outcome of a fragment of `parse_args`: a parsed value, a call to
`exit(code)` after an error message, or a crash (uncaught exception /
undefined behaviour) inside the fragment. -/
inductive CfgResult (α : Type) where
  | ok (a : α)
  | exitWith (code : Nat)
  | crashed
deriving DecidableEq

/-- Value of `yeet_parameters.approx_mapping` as observed by the
validation checks at `parse_args.hpp:287`, `:316` and `:347`: the field
is assigned only at `:580`-`:584`, after those checks have run, so with
the default-initialized `yeet::Parameters` (`:27`,
`approx_mapping = false`) every check sees `false` — in every mode,
`-m` included. -/
def approx_mapping_at_validation : Bool := false

/-- Segment-length handling in `parse_args`: when `-s` is given, parse
it with `handy_parameter`; `exit(1)` if the value is ≤ 0, below 100 bp,
or above 10000 bp. The 10 kb cap is written
`!yeet_parameters.approx_mapping && s > 10000` but reads the
not-yet-assigned field (`approx_mapping_at_validation` = false), so it
fires in every mode. When absent, `segLength = 1000`. -/
def parseSegmentLength (opt : Option (List Char)) : CfgResult Int :=
  match opt with
  | none => .ok 1000
  | some str =>
    match handy_parameter str with
    | none => .crashed
    | some s =>
      if s ≤ 0 then .exitWith 1
      else if s < 100 then .exitWith 1
      else if ¬approx_mapping_at_validation ∧ 10000 < s then .exitWith 1
      else .ok s

/-- Value of `std::numeric_limits<int64_t>::max()`. -/
def INT64_MAX : Int := 9223372036854775807

/-- Max-mapping-length handling in `parse_args`: `-P inf` maps to
`INT64_MAX`, other values go through `handy_parameter`; `exit(1)` if
the value is ≤ 0 or above 100000. Like the segment-length cap, the
100 kb check reads `approx_mapping` before it is assigned, so it fires
in every mode (and rejects `-P inf` unconditionally). Default 50000. -/
def parseMaxMappingLength (opt : Option (List Char)) : CfgResult Int :=
  match opt with
  | none => .ok 50000
  | some str =>
    match (if str = ['i', 'n', 'f'] then some INT64_MAX else handy_parameter str) with
    | none => .crashed
    | some l =>
      if l ≤ 0 then .exitWith 1
      else if ¬approx_mapping_at_validation ∧ 100000 < l then .exitWith 1
      else .ok l

/-- The combined segment-length / max-mapping-length validation of
`parse_args`, including the final cross check
`if (map_parameters.segLength >= map_parameters.max_mapping_length) exit(1)`. -/
def parseSegAndMax (segOpt maxOpt : Option (List Char)) :
    CfgResult (Int × Int) :=
  match parseSegmentLength segOpt with
  | .ok s =>
    match parseMaxMappingLength maxOpt with
    | .ok m => if s ≥ m then .exitWith 1 else .ok (s, m)
    | .exitWith c => .exitWith c
    | .crashed => .crashed
  | .exitWith c => .exitWith c
  | .crashed => .crashed

/-- Value of `std::numeric_limits<size_t>::max()`. -/
def SIZE_MAX : Int := 18446744073709551615

/-- Batch-size handling in `parse_args` (`-b`/`--batch`): when given,
parse with `handy_parameter` and `exit(1)` unless positive; when absent,
`index_by_size = std::numeric_limits<size_t>::max()` ("default to
indexing all sequences"). -/
def parse_index_by (opt : Option (List Char)) : CfgResult Int :=
  match opt with
  | some str =>
    match handy_parameter str with
    | none => .crashed
    | some v => if v ≤ 0 then .exitWith 1 else .ok v
  | none => .ok SIZE_MAX

/-- The `--wfa-params` block at `parse_args.hpp:226`-`246` as a function
of the string the code reads at `:227`: a nonempty value is split on
commas and must yield exactly 3 fields, else `exit(1)`; the fields go
through `std::stoi` into `(wfa_mismatch_score, wfa_gap_opening_score,
wfa_gap_extension_score)`; an empty value selects the defaults
`(2, 3, 1)`. In the program the string read there is always empty (see
`wfa_score_params_value`), so only the empty branch is reachable. -/
def parseWfaParams (value : List Char) : CfgResult (Int × Int × Int) :=
  if value.isEmpty then .ok (2, 3, 1)
  else
    match splitCh ',' value with
    | [p0, p1, p2] =>
      match stoiM p0, stoiM p1, stoiM p2 with
      | some a, some b, some c => .ok (a, b, c)
      | _, _, _ => .crashed
    | _ => .exitWith 1

/-- The string held by the `wfa_score_params` flag when `parse_args`
reads it at `:227`, as a function of the `--wfa-params` value the user
put on the command line (if any). `parser.ParseCLI` runs at `:133`, but
`wfa_score_params` is constructed only at `:226`, after parsing, so it
never matches a command-line token: `args::get` returns the
default-constructed empty string whatever the user passed. The user's
`--wfa-params` token is matched by the earlier `-g`/`--wfa-params` flag
of `:106` (so `ParseCLI` does not fail), but that flag's value is never
read. -/
def wfa_score_params_value (_userWfaParams : Option (List Char)) : List Char := []

/-- End-to-end effect of `parse_args` on the WFA penalties given the
user's `--wfa-params` option: the block at `:226`-`246` runs on the
always-empty string of `wfa_score_params_value`. -/
def wfaParamsEffective (userWfaParams : Option (List Char)) : CfgResult (Int × Int × Int) :=
  parseWfaParams (wfa_score_params_value userWfaParams)

/-- Value of `std::numeric_limits<uint64_t>::max()` as an exact rational. -/
def UINT64_MAX_Q : ℚ := 18446744073709551615

/-- Fate of `--sparsification` and the resulting
`sparsity_hash_threshold`. The `map_sparsification` flag is constructed
at `parse_args.hpp:212`, after `parser.ParseCLI` has already run at
`:133`, so a command line carrying `--sparsification` holds a token
unrecognized at parse time: `ParseCLI` throws `args::ParseError`, caught
at `:137` → `exit(1)` — whatever the factor. When the option is absent,
the never-matched flag tests false and the else branch at `:221`-`223`
stores `UINT64_MAX`; the factor branches at `:214`-`220` (the `== 1`
special case and the `factor * UINT64_MAX` product) are dead code. -/
def sparsificationOutcome (factor : Option ℚ) : CfgResult ℚ :=
  match factor with
  | some _ => .exitWith 1
  | none => .ok UINT64_MAX_Q

/-- Embedding of `MappingBoundaryRow` (from `align_types.hpp`, filled by
`parseMashmapRow`): the fields of one mashmap PAF row that the aligner
consumes. Strand is `true` for forward (`+`). -/
structure MappingBoundaryRow where
  qId : List Char
  qStartPos : Int
  qEndPos : Int
  strandFwd : Bool
  refId : List Char
  rStartPos : Int
  rEndPos : Int
  mashmap_estimated_identity : ℚ
deriving DecidableEq

/-- Ways the C++ code can die inside `parseMashmapRow`. -/
inductive CrashKind where
  /-- `assert(tokens.size() >= 9)` fails: `abort()` / SIGABRT. -/
  | assertFail
  /-- An out-of-bounds `std::vector` subscript: undefined behaviour. -/
  | outOfBounds
  /-- An uncaught exception from `std::stoi` / `std::stof`:
  `std::terminate` / SIGABRT. -/
  | badNumber
deriving DecidableEq

/-- Modelled from the spec: `skch::fixed::percentage_identity`
(`map/include/map_parameters.hpp`, not under `src/`). The spec's option
table gives `map_pct_id` default 70 (percent), and `parse_args` assigns
this constant when `-p` is absent; `parseMashmapRow` uses the same
constant (identity scaled to `[0,1]`) when a row carries no parsable
identity tag. -/
def fixed_percentage_identity : ℚ := 70 / 100

/-- Models `wfmash::is_a_number` (`common/utils.hpp`, not under `src/`),
used by `parseMashmapRow` on the last `:`-separated field of column 13:
a nonempty string of digits with at most one dot, holding at least one
digit. No claim depends on its exact sieve. -/
def is_a_number (s : List Char) : Bool :=
  !s.isEmpty && s.all (fun c => isDig c || c = '.') && s.count '.' < 2
    && s.any isDig

deriving instance DecidableEq for Except

/-- Embedding of `align::Aligner::parseMashmapRow`: tokenise the line on whitespace,
`assert(tokens.size() >= 9)`, read the identity from `tokens[12]`
(splitting it on `:` and taking the last field), then fill the record
from `tokens[0,2,3,4,5,7,8]` via `std::stoi`. Every container subscript
of the source is modelled as a checked access whose failure is the
corresponding `CrashKind`; in particular the `tokens[12]` subscript is
performed after an assertion that only guarantees 9 tokens. -/
def parseMashmapRow (line : List Char) : Except CrashKind MappingBoundaryRow :=
  let tokens := wsTokens line
  if tokens.length < 9 then .error .assertFail
  else
    match tokens.get? 12 with
    | none => .error .outOfBounds
    | some t12 =>
      match (splitCh ':' t12).getLast? with
      | none => .error .outOfBounds
      | some lastTok =>
        let mm_id : ℚ :=
          if is_a_number lastTok then
            ((decParts lastTok).map decValue).getD 0 / 100
          else fixed_percentage_identity
        match stoiM (tokens.getD 2 []), stoiM (tokens.getD 3 []),
              stoiM (tokens.getD 7 []), stoiM (tokens.getD 8 []) with
        | some qs, some qe, some rs, some rr =>
          .ok { qId := tokens.getD 0 []
                qStartPos := qs
                qEndPos := qe
                strandFwd := tokens.getD 4 [] = ['+']
                refId := tokens.getD 5 []
                rStartPos := rs
                rEndPos := rr
                mashmap_estimated_identity := mm_id }
        | _, _, _, _ => .error .badNumber

/-- Observable outcome of the first pass of
`align::Aligner::computeAlignments` (the loop counting
`total_alignment_length` over the `-i` mapping file, which runs before
any alignment is produced and before anything is written to stdout). -/
inductive ProcResult where
  | ok (total : Int)
  | exitCode (code : Nat)
  | abortSignal
  | undefinedBeh
deriving DecidableEq

/-- How each `CrashKind` surfaces at process level. -/
def crashResult : CrashKind → ProcResult
  | .assertFail => .abortSignal
  | .outOfBounds => .undefinedBeh
  | .badNumber => .abortSignal

/-- The prescan loop of `computeAlignments`: for every nonempty line of
the mapping file, `parseMashmapRow` then
`total_alignment_length += qEndPos - qStartPos`. -/
def computeAlignmentsPrescan : List (List Char) → ProcResult
  | [] => .ok 0
  | line :: rest =>
    if line.isEmpty then computeAlignmentsPrescan rest
    else
      match parseMashmapRow line with
      | .error e => crashResult e
      | .ok r =>
        match computeAlignmentsPrescan rest with
        | .ok t => .ok (t + (r.qEndPos - r.qStartPos))
        | other => other

/-- In `doAlignment`: padding of the reference fetch at the head,
`rStartPos >= wflign_max_len_minor ? wflign_max_len_minor : rStartPos`. -/
def head_padding (minor : Int) (r : MappingBoundaryRow) : Int :=
  if r.rStartPos ≥ minor then minor else r.rStartPos

/-- In `doAlignment`: padding of the reference fetch at the tail,
`ref_size - rEndPos >= wflign_max_len_minor ? wflign_max_len_minor
: ref_size - rEndPos`. -/
def tail_padding (minor refSize : Int) (r : MappingBoundaryRow) : Int :=
  if refSize - r.rEndPos ≥ minor then minor else refSize - r.rEndPos

/-- First reference base fetched by `faidx_fetch_seq64` in `doAlignment`:
`rStartPos - head_padding`. -/
def refFetchStart (minor : Int) (r : MappingBoundaryRow) : Int :=
  r.rStartPos - head_padding minor r

/-- Last reference base fetched by `faidx_fetch_seq64` in `doAlignment`:
`rEndPos + tail_padding`. -/
def refFetchEnd (minor refSize : Int) (r : MappingBoundaryRow) : Int :=
  r.rEndPos + tail_padding minor refSize r

/-- First query base used by `doAlignment`: `queryRegion` points at
`qSequence->c_str() + qStartPos` — the mapping's own start, with no
padding applied. -/
def queryRegionStart (r : MappingBoundaryRow) : Int :=
  r.qStartPos

/-- One-past-last query base used by `doAlignment`:
`qStartPos + (qEndPos - qStartPos)` — the mapping's own end. -/
def queryRegionEnd (r : MappingBoundaryRow) : Int :=
  r.qStartPos + (r.qEndPos - r.qStartPos)

/-- Capacity of the pipeline's atomic queues:
`atomic_queue::AtomicQueue<seq_record_t*, 2 << 16>` and
`atomic_queue::AtomicQueue<std::string*, 2 << 16>`
(`computeAlignments.hpp`, the `seq_atomic_queue_t` and
`paf_atomic_queue_t` typedefs). `2 << 16 = 131072`. -/
def QUEUE_CAPACITY : Nat := 2 <<< 16

/-- One step of a bounded atomic queue, modelled on the element multiset
as a list: `push` blocks while the queue is full, so the transition is
enabled only below capacity; `pop` removes the front element. -/
inductive QStep (cap : Nat) : List Unit → List Unit → Prop
  | push (q : List Unit) (h : q.length < cap) : QStep cap q (q ++ [()])
  | pop (x : Unit) (q : List Unit) : QStep cap (x :: q) q

/-- Queue states reachable from the empty queue. -/
inductive QReach (cap : Nat) : List Unit → Prop
  | init : QReach cap []
  | step {q r : List Unit} : QReach cap q → QStep cap q r → QReach cap r

/-- Every queue content of size at most the capacity is reachable (by
pushing that many items). -/
theorem qreach_replicate (cap k : Nat) (hk : k ≤ cap) :
    QReach cap (List.replicate k ()) := by
  induction k with
  | zero => exact .init
  | succ n ih =>
    have hn : QReach cap (List.replicate n ()) := ih (Nat.le_of_succ_le hk)
    have hs : QStep cap (List.replicate n ()) (List.replicate n () ++ [()]) :=
      .push _ (by simpa using Nat.lt_of_succ_le hk)
    have := hn.step hs
    simpa [List.replicate_succ' (n := n)] using this

/-- Program counter of a worker thread in `computeAlignments`. A worker
is "working" (its `std::atomic<bool>` flag is true) in every state but
`exited`; the flags are initialised to `true` in the driver before the
threads launch, and the redundant `is_working.store(true)` at worker
entry does not change them. -/
inductive WorkerPC where
  /-- At the head of the loop, about to `try_pop` the work queue. -/
  | loop
  /-- Holding a popped record, running `doAlignment`. -/
  | gotItem
  /-- Observed a failed `try_pop`; about to read `reader_done`. -/
  | sawEmpty
  /-- Broke out of the loop after `is_working.store(false)`. -/
  | exited
deriving DecidableEq

/-- Program counter of the writer thread in `computeAlignments`. -/
inductive WriterPC where
  /-- About to `try_pop` the result queue. -/
  | loop
  /-- Observed a failed `try_pop`; about to evaluate `still_working`. -/
  | sawEmpty
  /-- Broke out of the loop. -/
  | exited
deriving DecidableEq

/-- Interleaved state of the `computeAlignments` pipeline: the reader's
remaining work units and its `reader_done` flag, the two bounded queues,
one program counter per worker, and the writer's program counter. -/
structure PipeState where
  pending : Nat
  reader_done : Bool
  seqQ : List Unit
  pafQ : List Unit
  wpc : List WorkerPC
  writer : WriterPC
deriving DecidableEq

/-- One interleaved step of the pipeline. Each constructor is one atomic
action of the source: a single atomic-queue operation, one atomic flag
access, or one two-part exit test split at its sequence point (the
`&&` in `!seq_queue.try_pop(rec) && reader_done.load()` and in
`!paf_queue.try_pop(paf_lines) && !still_working(working)` reads the
flag only after the failed pop). -/
inductive PStep : PipeState → PipeState → Prop
  /-- Reader enqueues one work unit (blocking push: below capacity). -/
  | readerPush (s : PipeState) (k : Nat) (hp : s.pending = k + 1)
      (hq : s.seqQ.length < QUEUE_CAPACITY) :
      PStep s { s with pending := k, seqQ := s.seqQ ++ [()] }
  /-- Reader finished all inputs: `reader_done.store(true)`. -/
  | readerFinish (s : PipeState) (hp : s.pending = 0) (hd : s.reader_done = false) :
      PStep s { s with reader_done := true }
  /-- Worker `i` pops a work unit. -/
  | workerPop (s : PipeState) (i : Nat) (x : Unit) (rest : List Unit)
      (hw : s.wpc.get? i = some .loop) (hq : s.seqQ = x :: rest) :
      PStep s { s with seqQ := rest, wpc := s.wpc.set i .gotItem }
  /-- Worker `i` observes a failed `try_pop` on the empty work queue. -/
  | workerPopFail (s : PipeState) (i : Nat)
      (hw : s.wpc.get? i = some .loop) (hq : s.seqQ = []) :
      PStep s { s with wpc := s.wpc.set i .sawEmpty }
  /-- Worker `i` finishes `doAlignment` and pushes a nonempty result
  (blocking push). -/
  | workerPush (s : PipeState) (i : Nat)
      (hw : s.wpc.get? i = some .gotItem) (hq : s.pafQ.length < QUEUE_CAPACITY) :
      PStep s { s with pafQ := s.pafQ ++ [()], wpc := s.wpc.set i .loop }
  /-- Worker `i` finishes `doAlignment` with empty output (nothing is
  pushed; the empty string is deleted). -/
  | workerDrop (s : PipeState) (i : Nat) (hw : s.wpc.get? i = some .gotItem) :
      PStep s { s with wpc := s.wpc.set i .loop }
  /-- Worker `i` reads `reader_done = true` after its failed pop and
  breaks, storing `false` into its working flag. -/
  | workerExit (s : PipeState) (i : Nat)
      (hw : s.wpc.get? i = some .sawEmpty) (hd : s.reader_done = true) :
      PStep s { s with wpc := s.wpc.set i .exited }
  /-- Worker `i` reads `reader_done = false` after its failed pop,
  sleeps, and loops. -/
  | workerResume (s : PipeState) (i : Nat)
      (hw : s.wpc.get? i = some .sawEmpty) (hd : s.reader_done = false) :
      PStep s { s with wpc := s.wpc.set i .loop }
  /-- Writer pops a result and writes it to the output stream. -/
  | writerPop (s : PipeState) (x : Unit) (rest : List Unit)
      (hw : s.writer = .loop) (hq : s.pafQ = x :: rest) :
      PStep s { s with pafQ := rest }
  /-- Writer observes a failed `try_pop` on the empty result queue. -/
  | writerPopFail (s : PipeState) (hw : s.writer = .loop) (hq : s.pafQ = []) :
      PStep s { s with writer := .sawEmpty }
  /-- Writer evaluates `still_working`: every flag is false, so it
  breaks. -/
  | writerExit (s : PipeState) (hw : s.writer = .sawEmpty)
      (hall : ∀ pc ∈ s.wpc, pc = WorkerPC.exited) :
      PStep s { s with writer := .exited }
  /-- Writer evaluates `still_working`: some worker is still working, so
  it sleeps and loops. -/
  | writerResume (s : PipeState) (i : Nat) (pc : WorkerPC)
      (hw : s.writer = .sawEmpty) (hi : s.wpc.get? i = some pc)
      (hpc : pc ≠ WorkerPC.exited) :
      PStep s { s with writer := .loop }

/-- Start state of the pipeline with `n` workers and `m` work units:
queues empty, `reader_done` false, all workers and the writer at their
loop heads (working flags all true). -/
def pipeInit (n m : Nat) : PipeState :=
  { pending := m
    reader_done := false
    seqQ := []
    pafQ := []
    wpc := List.replicate n .loop
    writer := .loop }

/-- Pipeline states reachable from `pipeInit n m`. -/
inductive PReach (n m : Nat) : PipeState → Prop
  | init : PReach n m (pipeInit n m)
  | step {s t : PipeState} : PReach n m s → PStep s t → PReach n m t

/-- C2 (counterexample): the pipeline queues do not have capacity 65536.
`seq_atomic_queue_t` is `AtomicQueue<seq_record_t*, 2 << 16>` and
`2 << 16 = 131072`, so a queue content of 65537 items — exceeding the
claimed bound — is reachable by 65537 blocking pushes. -/
theorem queue_capacity_not_65536 :
    QReach QUEUE_CAPACITY (List.replicate 65537 ()) ∧
    ¬(List.replicate 65537 ()).length ≤ 65536 := by
  constructor
  · exact qreach_replicate QUEUE_CAPACITY 65537 (by decide)
  · rw [List.length_replicate]
    decide

/-- C2 (amended): the bounded queues of `computeAlignments` have fixed
capacity `2 << 16 = 131072`; with pushes blocking while the queue is
full, every reachable queue state holds at most 131072 items. -/
theorem queue_capacity_invariant (q : List Unit) (h : QReach QUEUE_CAPACITY q) :
    q.length ≤ QUEUE_CAPACITY ∧ QUEUE_CAPACITY = 131072 := by
  refine ⟨?_, by decide⟩
  induction h with
  | init => simp
  | step hq hs ih =>
    cases hs with
    | push q hlt => simpa using hlt
    | pop x q => simp at ih; omega

/-- C2 (witness): the invariant applied to the reachable empty queue. -/
theorem queue_capacity_invariant_witness :
    ([] : List Unit).length ≤ QUEUE_CAPACITY ∧ QUEUE_CAPACITY = 131072 :=
  queue_capacity_invariant [] QReach.init

/-- C7 (counterexample): the writer thread can terminate while the
result queue is nonempty. With one worker and one work unit, the writer
observes a failed pop, then the worker pushes its result and exits, and
the writer's subsequent `still_working` check sees no working flag and
breaks — leaving the pushed result unwritten. The final state below is
reachable, its writer has exited, and its result queue still holds an
item, contradicting the claim that the writer exits only when the
result queue is empty. -/
theorem writer_exit_result_queue_nonempty :
    PReach 1 1 { pending := 0, reader_done := true, seqQ := [], pafQ := [()],
                 wpc := [WorkerPC.exited], writer := WriterPC.exited } ∧
    ¬([()] : List Unit) = [] := by
  refine ⟨?_, by decide⟩
  have h0 : PReach 1 1 (pipeInit 1 1) := PReach.init
  have h1 := h0.step (PStep.writerPopFail _ rfl rfl)
  have h2 := h1.step (PStep.readerPush _ 0 rfl (by decide))
  have h3 := h2.step (PStep.readerFinish _ rfl rfl)
  have h4 := h3.step (PStep.workerPop _ 0 () [] rfl rfl)
  have h5 := h4.step (PStep.workerPush _ 0 rfl (by decide))
  have h6 := h5.step (PStep.workerPopFail _ 0 rfl rfl)
  have h7 := h6.step (PStep.workerExit _ 0 rfl rfl)
  have h8 := h7.step (PStep.writerExit _ rfl (by decide))
  exact h8

/-- C7 (amended): shutdown ordering that the code does guarantee. A
worker clears its working flag (and exits) only after observing
`reader_done = true`, and the writer exits only after every worker's
flag is false; hence when the writer terminates the reader has finished
and every worker has exited. (The queue-emptiness half of the claim is
refuted: the emptiness observation precedes the flag check, so the
result queue may be nonempty at writer exit.) -/
theorem pipeline_shutdown_order (n m : Nat) (s : PipeState) (h : PReach n m s) :
    (s.writer = WriterPC.exited → ∀ pc ∈ s.wpc, pc = WorkerPC.exited) ∧
    (∀ pc ∈ s.wpc, pc = WorkerPC.exited → s.reader_done = true) := by
  induction h with
  | init =>
    constructor
    · intro hw
      have hw2 : WriterPC.loop = WriterPC.exited := hw
      exact absurd hw2 (by decide)
    · intro pc hmem hpc
      have hmem2 : pc ∈ List.replicate n WorkerPC.loop := hmem
      rw [List.eq_of_mem_replicate hmem2] at hpc
      exact absurd hpc (by decide)
  | step hr hs ih =>
    cases hs with
    | readerPush k hp hq => exact ih
    | readerFinish hp hd =>
      exact ⟨ih.1, fun pc hmem hpc => rfl⟩
    | workerPop i x rest hw hq =>
      constructor
      · intro hwx
        have := ih.1 hwx _ (List.get?_mem hw)
        exact absurd this (by decide)
      · intro pc hmem hpc
        rcases List.mem_or_eq_of_mem_set hmem with hmem2 | rfl
        · exact ih.2 pc hmem2 hpc
        · exact absurd hpc (by decide)
    | workerPopFail i hw hq =>
      constructor
      · intro hwx
        have := ih.1 hwx _ (List.get?_mem hw)
        exact absurd this (by decide)
      · intro pc hmem hpc
        rcases List.mem_or_eq_of_mem_set hmem with hmem2 | rfl
        · exact ih.2 pc hmem2 hpc
        · exact absurd hpc (by decide)
    | workerPush i hw hq =>
      constructor
      · intro hwx
        have := ih.1 hwx _ (List.get?_mem hw)
        exact absurd this (by decide)
      · intro pc hmem hpc
        rcases List.mem_or_eq_of_mem_set hmem with hmem2 | rfl
        · exact ih.2 pc hmem2 hpc
        · exact absurd hpc (by decide)
    | workerDrop i hw =>
      constructor
      · intro hwx
        have := ih.1 hwx _ (List.get?_mem hw)
        exact absurd this (by decide)
      · intro pc hmem hpc
        rcases List.mem_or_eq_of_mem_set hmem with hmem2 | rfl
        · exact ih.2 pc hmem2 hpc
        · exact absurd hpc (by decide)
    | workerExit i hw hd =>
      constructor
      · intro hwx
        have := ih.1 hwx _ (List.get?_mem hw)
        exact absurd this (by decide)
      · intro pc hmem hpc
        exact hd
    | workerResume i hw hd =>
      constructor
      · intro hwx
        have := ih.1 hwx _ (List.get?_mem hw)
        exact absurd this (by decide)
      · intro pc hmem hpc
        rcases List.mem_or_eq_of_mem_set hmem with hmem2 | rfl
        · exact ih.2 pc hmem2 hpc
        · exact absurd hpc (by decide)
    | writerPop x rest hw hq => exact ih
    | writerPopFail hw hq =>
      constructor
      · intro hwx
        have hwx2 : WriterPC.sawEmpty = WriterPC.exited := hwx
        exact absurd hwx2 (by decide)
      · exact ih.2
    | writerExit hw hall =>
      exact ⟨fun _ => hall, ih.2⟩
    | writerResume i pc hw hi hpc =>
      constructor
      · intro hwx
        have hwx2 : WriterPC.loop = WriterPC.exited := hwx
        exact absurd hwx2 (by decide)
      · exact ih.2

/-- C7 (witness): a clean shutdown with one worker and no work reaches a
state with the writer exited; the theorem applied there yields that the
reader had finished. -/
theorem pipeline_shutdown_order_witness :
    ({ pending := 0, reader_done := true, seqQ := [], pafQ := [],
       wpc := [WorkerPC.exited], writer := WriterPC.exited } : PipeState).reader_done
      = true := by
  have h0 : PReach 1 0 (pipeInit 1 0) := PReach.init
  have h1 := h0.step (PStep.readerFinish _ rfl rfl)
  have h2 := h1.step (PStep.workerPopFail _ 0 rfl rfl)
  have h3 := h2.step (PStep.workerExit _ 0 rfl rfl)
  have h4 := h3.step (PStep.writerPopFail _ rfl rfl)
  have h5 := h4.step (PStep.writerExit _ rfl (by decide))
  exact (pipeline_shutdown_order 1 0 _ h5).2 WorkerPC.exited (by decide) rfl

/-- The last element delivered by `getLast?` is a member of the list. -/
theorem mem_of_getLastSome {l : List Char} {a : Char} (h : l.getLast? = some a) :
    a ∈ l := by
  obtain ⟨hne, rfl⟩ := List.mem_getLast?_eq_getLast (Option.mem_def.mpr h)
  exact List.getLast_mem hne

/-- A digit or a dot is not a magnitude suffix. -/
theorem hpExp_of_digit_or_dot (c : Char) (h : (isDig c || c = '.') = true) :
    hpExp c = 0 := by
  have hk : ¬(c = 'k' ∨ c = 'K') := by
    rintro (rfl | rfl) <;> exact absurd h (by decide)
  have hm : ¬(c = 'm' ∨ c = 'M') := by
    rintro (rfl | rfl) <;> exact absurd h (by decide)
  have hg : ¬(c = 'g' ∨ c = 'G') := by
    rintro (rfl | rfl) <;> exact absurd h (by decide)
  simp [hpExp, hk, hm, hg]

/-- A string passing the `is_a_float` sieve is nonempty and holds only
digits and dots. -/
theorem is_a_float_chars {d : List Char} (h : is_a_float d = true) :
    d ≠ [] ∧ ∀ c ∈ d, (isDig c || c = '.') = true := by
  constructor
  · intro hd
    rw [hd] at h
    exact absurd h (by decide)
  · intro c hc
    unfold is_a_float at h
    simp only [Bool.and_eq_true, List.all_eq_true] at h
    exact h.1.2 c hc

/-- The function `handy_parameter` strips nothing from an `is_a_float` string (its
last character is a digit or a dot, never a suffix). -/
theorem hpTrim_of_float {d : List Char} (h : is_a_float d = true) :
    hpTrim d = (d, 0) := by
  obtain ⟨hne, hall⟩ := is_a_float_chars h
  unfold hpTrim
  cases hl : d.getLast? with
  | none => rfl
  | some c =>
    have h0 := hpExp_of_digit_or_dot c (hall c (mem_of_getLastSome hl))
    simp [h0]

/-- The function `handy_parameter` strips a trailing magnitude suffix. -/
theorem hpTrim_concat (d : List Char) (c : Char) (h : hpExp c ≠ 0) :
    hpTrim (d ++ [c]) = (d, hpExp c) := by
  unfold hpTrim
  rw [List.getLast?_concat]
  simp [h, List.dropLast_concat]

/-- C10 (counterexample): two failures of the claim. (a) The scaling is
not the exact product: on "1.1g" the claim demands 1.1·10^9 =
1100000000, which fits a 32-bit int, but `stof` rounds 1.1 to the
binary32 value 1.10000002384185791015625 and the code returns
1100000023. (b) On "." — which is not a decimal number — the claim
demands −1, but `is_a_float` accepts the lone dot, `stof(".")` throws,
and the uncaught exception kills the process (modelled as `none`). -/
theorem handy_parameter_counterexample :
    (handy_parameter "1.1g".toList = some 1100000023 ∧
      (1100000023 : Int) ≠ 1100000000) ∧
    (handy_parameter ['.'] = none ∧ (none : Option Int) ≠ some (-1)) := by
  refine ⟨⟨by decide, by decide⟩, by decide, by decide⟩

/-- C10 (amended): behaviour of `handy_parameter`.
1. The suffixes `k`/`K`, `m`/`M`, `g`/`G` scale by `10^3`, `10^6`,
   `10^9`.
2. A decimal number `d` of exact value `N / 10^L`, rounded by `stof` to
   the binary32 value `m·2^e`, followed by a suffix of exponent `k`,
   yields the truncation of `m·2^e · 10^k` whenever that value fits in
   a 32-bit signed int (the `double` product is exact, so only `stof`'s
   rounding is visible).
3. The same without a suffix yields the truncation of `m·2^e`.
4.-5. When the binary32 value is exact — `m·2^e = N/10^L` — that
   truncation is the number multiplied by `10^k` as the claim states,
   namely `N·10^k / 10^L` in floor division.
6. When the part left after suffix stripping fails the `is_a_float`
   sieve, the result is −1.
7. When that part is the digitless literal `"."`, the process dies on
   an uncaught `stof` exception instead of returning −1. -/
theorem handy_parameter_behaviour :
    (hpExp 'k' = 3 ∧ hpExp 'K' = 3 ∧ hpExp 'm' = 6 ∧ hpExp 'M' = 6 ∧
      hpExp 'g' = 9 ∧ hpExp 'G' = 9) ∧
    (∀ (d : List Char) (c : Char) (N L m : Nat) (e : Int),
        is_a_float d = true → decParts d = some (N, L) → hpExp c ≠ 0 →
        roundFloat32 N L = some (m, e) →
        scaledTrunc m e (hpExp c) ≤ 2147483647 →
        handy_parameter (d ++ [c]) = some (Int.ofNat (scaledTrunc m e (hpExp c)))) ∧
    (∀ (d : List Char) (N L m : Nat) (e : Int),
        is_a_float d = true → decParts d = some (N, L) →
        roundFloat32 N L = some (m, e) →
        scaledTrunc m e 0 ≤ 2147483647 →
        handy_parameter d = some (Int.ofNat (scaledTrunc m e 0))) ∧
    (∀ (m a k N L : Nat), m * 2 ^ a * 10 ^ L = N →
        scaledTrunc m (Int.ofNat a) k = N * 10 ^ k / 10 ^ L) ∧
    (∀ (m b k N L : Nat), m * 10 ^ L = N * 2 ^ (b + 1) →
        scaledTrunc m (Int.negSucc b) k = N * 10 ^ k / 10 ^ L) ∧
    (∀ value : List Char, value ≠ [] → is_a_float (hpTrim value).1 = false →
        handy_parameter value = some (-1)) ∧
    (∀ (value : List Char) (e : Nat), value ≠ [] → hpTrim value = (['.'], e) →
        handy_parameter value = none) := by
  refine ⟨by decide, ?_, ?_, ?_, ?_, ?_, ?_⟩
  · intro d c N L m e hf hp hc hr hrange
    have hne : ¬(d ++ [c]).isEmpty = true := by simp
    rw [handy_parameter, if_neg hne, hpTrim_concat d c hc]
    simp only [hf, if_pos, hp, hr, Option.map_some']
  · intro d N L m e hf hp hr hrange
    have hne : ¬d.isEmpty = true := by
      simpa using (is_a_float_chars hf).1
    rw [handy_parameter, if_neg hne, hpTrim_of_float hf]
    simp [hf, hp, hr]
  · intro m a k N L h
    show m * 2 ^ a * 10 ^ k = N * 10 ^ k / 10 ^ L
    subst h
    have h1 : m * 2 ^ a * 10 ^ L * 10 ^ k = m * 2 ^ a * 10 ^ k * 10 ^ L := by ring
    rw [h1, Nat.mul_div_cancel _ (Nat.pos_pow_of_pos L (by omega))]
  · intro m b k N L h
    show m * 10 ^ k / 2 ^ (b + 1) = N * 10 ^ k / 10 ^ L
    have hL : 0 < 10 ^ L := Nat.pos_pow_of_pos L (by omega)
    have hB : 0 < 2 ^ (b + 1) := Nat.pos_pow_of_pos (b + 1) (by omega)
    have h2 : m * 10 ^ k * 10 ^ L = N * 10 ^ k * 2 ^ (b + 1) := by
      calc m * 10 ^ k * 10 ^ L = m * 10 ^ L * 10 ^ k := by ring
        _ = N * 2 ^ (b + 1) * 10 ^ k := by rw [h]
        _ = N * 10 ^ k * 2 ^ (b + 1) := by ring
    calc m * 10 ^ k / 2 ^ (b + 1)
        = m * 10 ^ k * 10 ^ L / (2 ^ (b + 1) * 10 ^ L) := by
          rw [Nat.mul_div_mul_right _ _ hL]
      _ = N * 10 ^ k * 2 ^ (b + 1) / (2 ^ (b + 1) * 10 ^ L) := by rw [h2]
      _ = N * 10 ^ k * 2 ^ (b + 1) / (10 ^ L * 2 ^ (b + 1)) := by
          rw [Nat.mul_comm (2 ^ (b + 1)) (10 ^ L)]
      _ = N * 10 ^ k / 10 ^ L := by rw [Nat.mul_div_mul_right _ _ hB]
  · intro value hne hflt
    have hne2 : ¬value.isEmpty = true := by simpa using hne
    rw [handy_parameter, if_neg hne2]
    simp [hflt]
  · intro value e hne htrim
    have hne2 : ¬value.isEmpty = true := by simpa using hne
    rw [handy_parameter, if_neg hne2, htrim]
    rfl

/-- C10 (witness): the amended behaviour at concrete inputs: the
binary32 value of 5 is 10485760·2^(−21) (exact), so `"5k"` scales to
5000; `"x"` yields −1. -/
theorem handy_parameter_behaviour_witness :
    handy_parameter ['5', 'k'] = some 5000 ∧ handy_parameter ['x'] = some (-1) := by
  constructor
  · have h := handy_parameter_behaviour.2.1 ['5'] 'k' 5 0 10485760 (Int.negSucc 20)
      (by decide) (by decide) (by decide) (by decide) (by decide)
    have h2 : Int.ofNat (scaledTrunc 10485760 (Int.negSucc 20) (hpExp 'k')) = 5000 := by
      decide
    rw [h2] at h
    simpa using h
  · exact handy_parameter_behaviour.2.2.2.2.2.1 ['x'] (by decide) (by decide)

/-- C3 (counterexample): not even approximate-mapping mode accepts
every segment length of at least 100 bp. `-s 20k` parses to
20000 ≥ 100, yet `parse_args` exits with an error in every mode: the
10 kb cap's `!approx_mapping` guard reads the field before it is
assigned, so it observes false even under `-m`
(`approx_mapping_at_validation`). -/
theorem segment_length_20k_rejected_in_approx_mode :
    handy_parameter ['2', '0', 'k'] = some 20000 ∧
    (100 : Int) ≤ 20000 ∧
    approx_mapping_at_validation = false ∧
    parseSegAndMax (some ['2', '0', 'k']) none = .exitWith 1 := by
  refine ⟨by decide, by decide, rfl, by decide⟩

/-- C3 (amended): segment-length validation in `parse_args`.
1. A parsed value below 100 bp (including nonpositive values) exits
   with an error.
2. A value above 10000 bp exits with an error in every mode, `-m`
   included: the cap's guard reads `approx_mapping` before it is
   assigned, so `-m` never lifts the cap.
3. With the default max mapping length, any value in [100, 10000] is
   accepted verbatim (such values also pass the cross check against
   `max_mapping_length` = 50000).
4. When `-s` is absent the segment length defaults to 1000. -/
theorem segment_length_validation :
    (∀ (mx : Option (List Char)) (str : List Char) (s : Int),
        handy_parameter str = some s → s < 100 →
        parseSegAndMax (some str) mx = .exitWith 1) ∧
    (∀ (mx : Option (List Char)) (str : List Char) (s : Int),
        handy_parameter str = some s → 10000 < s →
        parseSegAndMax (some str) mx = .exitWith 1) ∧
    (∀ (str : List Char) (s : Int),
        handy_parameter str = some s → 100 ≤ s → s ≤ 10000 →
        parseSegAndMax (some str) none = .ok (s, 50000)) ∧
    parseSegAndMax none none = .ok (1000, 50000) := by
  refine ⟨?_, ?_, ?_, ?_⟩
  · intro mx str s h hlt
    have hseg : parseSegmentLength (some str) = .exitWith 1 := by
      simp only [parseSegmentLength, h]
      split_ifs <;> rfl
    simp [parseSegAndMax, hseg]
  · intro mx str s h hgt
    have hseg : parseSegmentLength (some str) = .exitWith 1 := by
      simp only [parseSegmentLength, h]
      split_ifs with h1 h2 h3
      all_goals first
        | rfl
        | (simp [approx_mapping_at_validation] at h3; omega)
    simp [parseSegAndMax, hseg]
  · intro str s h h100 h10k
    have hseg : parseSegmentLength (some str) = .ok s := by
      simp only [parseSegmentLength, h]
      split_ifs with h1 h2 h3
      all_goals first
        | rfl
        | omega
    have hmax : parseMaxMappingLength none = .ok 50000 := rfl
    simp only [parseSegAndMax, hseg, hmax]
    rw [if_neg (by omega)]
  · rfl

/-- C3 (witness): `-s 200` is accepted with segment length 200 and the
default max mapping length. -/
theorem segment_length_validation_witness :
    parseSegAndMax (some ['2', '0', '0']) none = .ok (200, 50000) :=
  segment_length_validation.2.2.1 ['2', '0', '0'] 200 (by decide) (by decide) (by decide)

/-- C5 (counterexample): with no `-b` option, `index_by_size` is
`std::numeric_limits<size_t>::max()` = 2^64 − 1 ("default to indexing
all sequences"), not the 4 GB = 4·10^9 of the claim (which reflects only
the stale `[4G]` note in the help text). -/
theorem index_by_default_not_4G :
    parse_index_by none = .ok SIZE_MAX ∧ SIZE_MAX ≠ (4000000000 : Int) := by
  refine ⟨rfl, by decide⟩

/-- C5 (amended): with no `-b`/`--batch` option the indexing batch byte
budget defaults to `SIZE_MAX` = 2^64 − 1, i.e. all target sequences are
indexed in a single batch; a given positive value is kept verbatim. -/
theorem index_by_size_default :
    parse_index_by none = .ok SIZE_MAX ∧
    SIZE_MAX = 2 ^ 64 - 1 ∧
    (∀ (str : List Char) (v : Int), handy_parameter str = some v → 0 < v →
        parse_index_by (some str) = .ok v) := by
  refine ⟨rfl, by decide, ?_⟩
  intro str v h hv
  simp only [parse_index_by, h]
  rw [if_neg (by omega)]

/-- C5 (witness): the amended behaviour at `-b 2k`. -/
theorem index_by_size_default_witness :
    parse_index_by (some ['2', 'k']) = .ok 2000 :=
  index_by_size_default.2.2 ['2', 'k'] 2000 (by decide) (by decide)

/-- C6 (counterexample): a user-supplied `--wfa-params` never reaches
the penalties. With `--wfa-params 9,9,9` the penalties remain
(2, 3, 1) — the supplied integers are not taken — and the malformed
`--wfa-params 1,2` triggers no `exit(1)` validation either: the token
is consumed by the dead `-g` registration while the validating flag,
constructed only after `ParseCLI`, always reads the empty string. -/
theorem wfa_params_option_ignored :
    wfaParamsEffective (some "9,9,9".toList) = .ok (2, 3, 1) ∧
    (CfgResult.ok ((9 : Int), (9 : Int), (9 : Int)) ≠
      CfgResult.ok ((2 : Int), (3 : Int), (1 : Int))) ∧
    wfaParamsEffective (some "1,2".toList) = .ok (2, 3, 1) := by
  refine ⟨rfl, by decide, rfl⟩

/-- C6 (amended): the end-to-end affine penalties are
(mismatch, gap_open, gap_extend) = (2, 3, 1) in every run. When
`--wfa-params` is absent, the block at `parse_args.hpp:242`-`246`
assigns these defaults; when the option is given, it is silently
ignored — the `wfa_score_params` flag that the block reads is
registered only after `ParseCLI`, so its string is always empty, no
3-field validation ever runs, and the user's values never reach the
penalties. -/
theorem wfa_params_always_default :
    (∀ opt : Option (List Char), wfaParamsEffective opt = .ok (2, 3, 1)) ∧
    parseWfaParams [] = .ok (2, 3, 1) :=
  ⟨fun _ => rfl, rfl⟩

/-- A concrete accepted mapping used to test `doAlignment`'s padding:
query interval [1000, 2000), reference interval [100, 6000) on a
20000 bp reference. -/
def samplePaddingRow : MappingBoundaryRow :=
  { qId := ['q']
    qStartPos := 1000
    qEndPos := 2000
    strandFwd := true
    refId := ['r']
    rStartPos := 100
    rEndPos := 6000
    mashmap_estimated_identity := 0 }

/-- C4 (counterexample): `doAlignment` does not pad both the query and
the target interval by `wflign_max_len_minor`. With
`wflign_max_len_minor = 500` on `samplePaddingRow`: the query region
starts exactly at `qStartPos` (no padding at all), and the reference
fetch starts at 0, not at `rStartPos − 500` (head padding is clamped to
the 100 available bases). -/
theorem doAlignment_padding_not_both_sides :
    queryRegionStart samplePaddingRow = samplePaddingRow.qStartPos ∧
    queryRegionStart samplePaddingRow ≠ samplePaddingRow.qStartPos - 500 ∧
    refFetchStart 500 samplePaddingRow = 0 ∧
    refFetchStart 500 samplePaddingRow ≠ samplePaddingRow.rStartPos - 500 := by
  refine ⟨by decide, by decide, by decide, by decide⟩

/-- C4 (amended): before aligning, `doAlignment` pads only the target
(reference) interval, extending each flank by `wflign_max_len_minor`
clamped to the available sequence (`min minor rStartPos` at the head,
`min minor (refSize − rEndPos)` at the tail) to permit boundary
correction; the query interval is used exactly as mapped, unpadded. -/
theorem doAlignment_padding (minor refSize : Int) (r : MappingBoundaryRow) :
    refFetchStart minor r = r.rStartPos - min minor r.rStartPos ∧
    refFetchEnd minor refSize r = r.rEndPos + min minor (refSize - r.rEndPos) ∧
    queryRegionStart r = r.qStartPos ∧
    queryRegionEnd r = r.qEndPos := by
  refine ⟨?_, ?_, rfl, ?_⟩
  · simp only [refFetchStart, head_padding, min_def]
  · simp only [refFetchEnd, tail_padding, min_def]
  · simp only [queryRegionEnd]
    omega

/-- C8 (counterexample): giving `--sparsification` with factor exactly
1.0 does not set `sparsity_hash_threshold` to `UINT64_MAX` — it does
not set it at all. The flag is registered only after `ParseCLI`, so the
token is unrecognized at parse time and the program exits with code 1
before any threshold assignment. -/
theorem sparsification_factor_one_exits :
    sparsificationOutcome (some 1) = .exitWith 1 ∧
    sparsificationOutcome (some 1) ≠ .ok UINT64_MAX_Q := by
  refine ⟨rfl, ?_⟩
  intro h
  exact CfgResult.noConfusion h

/-- C8 (amended): supplying `--sparsification` at any factor (1.0
included) terminates the program with exit code 1 during command-line
parsing — the flag is registered after `ParseCLI`, so the `== 1`
special case and the `factor * UINT64_MAX` product at
`parse_args.hpp:214`-`220` are dead code. In every run that proceeds
past parsing, `sparsity_hash_threshold` is unconditionally
`UINT64_MAX` = 2^64 − 1, the value stored by the absent-option branch. -/
theorem sparsity_threshold_unconditional :
    (∀ f : ℚ, sparsificationOutcome (some f) = .exitWith 1) ∧
    sparsificationOutcome none = .ok UINT64_MAX_Q ∧
    UINT64_MAX_Q = 2 ^ 64 - 1 :=
  ⟨fun _ => rfl, rfl, by norm_num [UINT64_MAX_Q]⟩

/-- C1 (counterexample): a PAF row with fewer than 9 columns supplied
via `-i` does not make the process exit with code 2. The prescan of
`computeAlignments` calls `parseMashmapRow`, whose
`assert(tokens.size() >= 9)` fails: the process dies on SIGABRT
(`abort()`), not via `exit(2)`. -/
theorem malformed_paf_row_no_exit_2 :
    computeAlignmentsPrescan ["a b c".toList] = ProcResult.abortSignal ∧
    computeAlignmentsPrescan ["a b c".toList] ≠ ProcResult.exitCode 2 := by
  constructor <;> decide

/-- C1 (amended): any nonempty mapping line with fewer than 9
whitespace-separated columns makes the prescan of `computeAlignments`
die on the failed assertion (SIGABRT) before any alignment output is
produced; no `exit(2)` path exists. (With `NDEBUG` the assertion
vanishes and the subsequent `tokens[12]` read is undefined behaviour
instead.) -/
theorem malformed_paf_row_aborts (line : List Char)
    (hne : line ≠ []) (hlt : (wsTokens line).length < 9) :
    computeAlignmentsPrescan [line] = ProcResult.abortSignal := by
  have hne2 : ¬line.isEmpty = true := by simpa using hne
  rw [computeAlignmentsPrescan, if_neg hne2, parseMashmapRow]
  rw [if_pos hlt]
  rfl

/-- C1 (witness): the amended behaviour on the two-column line "q 10". -/
theorem malformed_paf_row_aborts_witness :
    computeAlignmentsPrescan ["q 10".toList] = ProcResult.abortSignal :=
  malformed_paf_row_aborts _ (by decide) (by decide)

/-- C9: in `parseMashmapRow` the stated precondition — the asserted
`tokens.size() >= 9` — does not make every container access in bounds:
on a row with exactly 9 tokens the assertion passes, yet the identity
read `tokens[12]` is out of bounds (the code needs 13 columns). The
nine-token line below satisfies the precondition and drives the parse
into the out-of-bounds access. -/
theorem parseMashmapRow_nine_token_row_oob :
    (wsTokens "q 100 0 50 + r 100 0 50".toList).length = 9 ∧
    ¬(wsTokens "q 100 0 50 + r 100 0 50".toList).length < 9 ∧
    parseMashmapRow "q 100 0 50 + r 100 0 50".toList =
      .error CrashKind.outOfBounds := by
  refine ⟨by decide, by decide, by decide⟩

end Wfmash

